import Mathlib

/-!
Verification of the advent-of-code harness (`src/lib.rs`).

Shallow embedding of the runner in `src/lib.rs`: selection parsing,
orchestration over the year/day/part registry, single-run verification and
the percentile benchmark.  Wall-clock measurement and the filesystem are
modelled by an explicit environment (`Env`): durations are abstract `Nat`
time units (the Rust `Debug` rendering of a `Duration` is abstracted as the
decimal rendering of that `Nat`), and the fixture store maps a `(year, day)`
pair to `some lines`, or to `none` when the file is missing or cannot be
fully read.  A panic or a fatal fixture error is an abnormal process
termination, recorded in the `fatal` field of a `RunResult` together with
the events (stdout/stderr lines) emitted before it.
-/

namespace Aoc

/-- `FIRST_YEAR` constant from `src/lib.rs`. -/
def FIRST_YEAR : Nat := 2021

/-- The `Solve` trait: a part yields its known-correct output and computes an
output from the input lines. -/
structure Part where
  correct_solution : String
  solve : List String → String

/-- A day is an ordered sequence of parts (possibly empty). -/
abbrev Day := List Part

/-- A year is an ordered sequence of days. -/
abbrev Year := List Day

/-- The registry: ordered years, each a list of days, each a list of parts. -/
abbrev Registry := List Year

/-- The `Selection` enum from `src/lib.rs`. -/
inductive Selection where
  | All : Selection
  | Latest : Selection
  | Single : Nat → Selection
deriving DecidableEq

/-- Rust's `usize::from_str` on the relevant inputs: an optional leading `+`
followed by one or more ASCII digits; anything else fails.  The machine
width of `usize` (platform dependent, not fixed by the source) is
abstracted, so the value is an unbounded `Nat`. -/
def parseUsize (s : String) : Option Nat :=
  let ds := match s.data with
    | '+' :: rest => rest
    | chars => chars
  if ds.isEmpty then none
  else if ds.all Char.isDigit then
    some (ds.foldl (fun acc c => 10 * acc + (c.toNat - 48)) 0)
  else none

/-- `Selection::parse`: `"*"` is `All`, `"."` is `Latest`, anything else is
parsed as a `usize` for `Single`, the parse error propagating to the
caller (the Rust `ParseIntError` payload is abstracted to `Unit`). -/
def Selection.parse (text : String) : Except Unit Selection :=
  if text = "*" then .ok .All
  else if text = "." then .ok .Latest
  else match parseUsize text with
    | some n => .ok (.Single n)
    | none => .error ()

/-- An observable output event: a line on stdout (`println!`) or on stderr
(`eprintln!`). -/
inductive Event where
  | out : String → Event
  | err : String → Event
deriving DecidableEq

/-- An abnormal process termination. `fixtureMissing` is the
`unwrap_or_else(panic!)` / `unwrap()` pair on opening and reading the input
file; `panicLatestEmpty` is `last().unwrap()` on an empty sequence when
resolving `Selection::Latest`; `panicIndex` covers the remaining `unwrap()`
and slice-index panics. -/
inductive Fatal where
  | fixtureMissing : Nat → Nat → Fatal
  | panicLatestEmpty : Fatal
  | panicIndex : Fatal
deriving DecidableEq

/-- Outcome of (part of) a run: the events emitted, and whether it ended in
an abnormal termination. -/
structure RunResult where
  events : List Event
  fatal : Option Fatal
deriving DecidableEq

/-- Sequential composition: if `a` terminated abnormally, `b` never runs. -/
def RunResult.seq (a b : RunResult) : RunResult :=
  match a.fatal with
  | some _ => a
  | none => ⟨a.events ++ b.events, b.fatal⟩

/-- The environment a run executes in: the fixture store (`none` models a
missing or unreadable input file), the measured duration of the single
verified run of part `p` of `(year, day)`, and the measured duration of
benchmark iteration `i` of that part. -/
structure Env where
  fixture : Nat → Nat → Option (List String)
  runDuration : Nat → Nat → Nat → Nat
  benchDuration : Nat → Nat → Nat → Nat → Nat

/-- `benchmark_part` from `src/lib.rs`: run the part `loop_count` times on a
fresh copy of the input (the result of `solve` is discarded: `_ = ...`),
record each duration via the `measure` oracle, sort ascending
(`sort_unstable`), and index the sorted timings at `loop_count / 20`
(integer division).  `none` models the index-out-of-bounds panic, which can
only occur for `loop_count = 0`. -/
def benchmark_part (part : Part) (input : List String) (measure : Nat → Nat)
    (loop_count : Nat) : Option String :=
  let timings := (List.range loop_count).map (fun i =>
    let _discarded := part.solve input
    measure i)
  let sorted := timings.mergeSort (fun a b => a ≤ b)
  match sorted[loop_count / 20]? with
  | some p5 => some s!"{loop_count} loops, top 5%: {p5} per loop"
  | none => none

/-- The per-part body of the loop in `run_solution`: benchmark when a loop
count is present, otherwise one timed, verified run formatted as
`"{check} {result} ({duration})"` with a green check on an exact string
match and a red cross otherwise. -/
def part_output (env : Env) (year day part_n : Nat) (part : Part)
    (input : List String) (loop_count : Option Nat) : Option String :=
  match loop_count with
  | some lc => benchmark_part part input (env.benchDuration year day part_n) lc
  | none =>
    let result := part.solve input
    let duration := env.runDuration year day part_n
    let check := if result = part.correct_solution then "\x1B[32m✔\x1B[0m"
      else "\x1B[31m✘\x1B[0m"
    some s!"{check} {result} ({duration})"

/-- The part loop of `run_solution`: parts are numbered from `part_n`
(called with `1`), each emitting one stdout line
`"year {year}, day {day}, part {part_n}: {output}"`. -/
def run_parts (env : Env) (input : List String) (year day : Nat)
    (loop_count : Option Nat) : List Part → Nat → RunResult
  | [], _ => ⟨[], none⟩
  | part :: rest, part_n =>
    match part_output env year day part_n part input loop_count with
    | none => ⟨[], some .panicIndex⟩
    | some output =>
      RunResult.seq ⟨[.out s!"year {year}, day {day}, part {part_n}: {output}"], none⟩
        (run_parts env input year day loop_count rest (part_n + 1))

/-- `run_solution` from `src/lib.rs`: load the fixture for `(year, day)`
(fatal when missing or unreadable), then run every part. -/
def run_solution (env : Env) (parts : Day) (year day : Nat)
    (loop_count : Option Nat) : RunResult :=
  match env.fixture year day with
  | none => ⟨[], some (.fixtureMissing year day)⟩
  | some input => run_parts env input year day loop_count parts 1

/-- The inner loop of `run_solutions`: iterate the resolved days with their
enumeration offset, skipping empty ones (`filter` after `enumerate`, so day
numbers stay aligned), running `run_solution` with day number
`day_n + day_offset`. -/
def run_days (env : Env) (year_abs day_n : Nat) (loop_count : Option Nat) :
    List Day → Nat → RunResult
  | [], _ => ⟨[], none⟩
  | day :: rest, day_offset =>
    let tail := run_days env year_abs day_n loop_count rest (day_offset + 1)
    if day.isEmpty then tail
    else RunResult.seq (run_solution env day year_abs (day_n + day_offset) loop_count) tail

/-- One iteration of the outer loop of `run_solutions`: resolve the day
selection against `year`.  `year_n` is the resolved base year number (used
in the out-of-range message), `year_abs = year_n + year_offset` the
absolute year of this iteration (used for fixtures and result lines).
`Latest` on a year with no days panics (`last().unwrap()`); an out-of-range
`Single` reports to stderr and continues. -/
def run_year (env : Env) (year_n year_abs : Nat) (day_selection : Selection)
    (loop_count : Option Nat) (year : Year) : RunResult :=
  match day_selection with
  | .All => run_days env year_abs 1 loop_count year 0
  | .Latest =>
    match year.getLast? with
    | none => ⟨[], some .panicLatestEmpty⟩
    | some d => run_days env year_abs year.length loop_count [d] 0
  | .Single day_n =>
    if day_n < 1 || year.length < day_n then
      ⟨[.err s!"no solution available for day {day_n} of year {year_n}"], none⟩
    else
      match year[day_n - 1]? with
      | some d => run_days env year_abs day_n loop_count [d] 0
      | none => ⟨[], some .panicIndex⟩

/-- The outer loop of `run_solutions`: years with their enumeration offset,
the absolute year number being `year_n + year_offset`. -/
def run_years (env : Env) (year_n : Nat) (day_selection : Selection)
    (loop_count : Option Nat) : List Year → Nat → RunResult
  | [], _ => ⟨[], none⟩
  | year :: rest, year_offset =>
    RunResult.seq (run_year env year_n (year_n + year_offset) day_selection loop_count year)
      (run_years env year_n day_selection loop_count rest (year_offset + 1))

/-- `print_selection` from `src/lib.rs`: the pre-run summary on stderr. -/
def print_selection (year_selection day_selection : Selection)
    (latest_year : Nat) : Event :=
  let year_text := match year_selection with
    | .All => "all years"
    | .Latest => s!"latest year ({latest_year})"
    | .Single value => s!"year {value}"
  let day_text := match day_selection with
    | .All => "all days"
    | .Latest => "latest day"
    | .Single value => s!"day {value}"
  .err s!"solving {day_text} of {year_text}"

/-- `run_solutions` from `src/lib.rs`: resolve the year selection (an
out-of-range `Single` reports and returns before the summary; `Latest`
on an empty registry panics), print the selection summary, and run the
resolved years. -/
def run_solutions (env : Env) (all_solutions : Registry)
    (year_selection day_selection : Selection) (loop_count : Option Nat) :
    RunResult :=
  match year_selection with
  | .All =>
    RunResult.seq ⟨[print_selection .All day_selection FIRST_YEAR], none⟩
      (run_years env FIRST_YEAR day_selection loop_count all_solutions 0)
  | .Latest =>
    match all_solutions.getLast? with
    | none => ⟨[], some .panicLatestEmpty⟩
    | some y =>
      let year_n := all_solutions.length + FIRST_YEAR - 1
      RunResult.seq ⟨[print_selection .Latest day_selection year_n], none⟩
        (run_years env year_n day_selection loop_count [y] 0)
  | .Single year_n =>
    if year_n < FIRST_YEAR || all_solutions.length ≤ year_n - FIRST_YEAR then
      ⟨[.err s!"no solutions available for year {year_n}"], none⟩
    else
      match all_solutions[year_n - FIRST_YEAR]? with
      | some y =>
        RunResult.seq ⟨[print_selection (.Single year_n) day_selection year_n], none⟩
          (run_years env year_n day_selection loop_count [y] 0)
      | none => ⟨[], some .panicIndex⟩

/-! ## Spec-side resolution scopes and derived notions -/

/-- Pair each element of a list with consecutive numbers starting at `base`. -/
def withNumbers (base : Nat) : List α → List (Nat × α)
  | [] => []
  | a :: rest => (base, a) :: withNumbers (base + 1) rest

/-- The `(absolute year number, year)` pairs a year selection resolves to:
all years numbered from `FIRST_YEAR` for `All`, the last year for `Latest`
(nothing when the registry is empty: `run_solutions` panics there), and the
single in-range year for `Single` (nothing when out of range). -/
def yearScopeList (reg : Registry) : Selection → List (Nat × Year)
  | .All => withNumbers FIRST_YEAR reg
  | .Latest =>
    match reg.getLast? with
    | none => []
    | some y => [(reg.length + FIRST_YEAR - 1, y)]
  | .Single year_n =>
    if year_n < FIRST_YEAR || reg.length ≤ year_n - FIRST_YEAR then []
    else
      match reg[year_n - FIRST_YEAR]? with
      | some y => [(year_n, y)]
      | none => []

/-- The `(day number, day)` pairs a day selection resolves to within one
year: days numbered from `1` for `All`, the last day for `Latest` (nothing
when the year has no days: `run_solutions` panics there), and the single
in-range day for `Single` (nothing when out of range). -/
def dayScopeList (year : Year) : Selection → List (Nat × Day)
  | .All => withNumbers 1 year
  | .Latest =>
    match year.getLast? with
    | none => []
    | some d => [(year.length, d)]
  | .Single day_n =>
    if day_n < 1 || year.length < day_n then []
    else
      match year[day_n - 1]? with
      | some d => [(day_n, d)]
      | none => []

/-- Loop counts the harness entry point accepts: absent (verification mode)
or a `NonZeroU16` value (benchmark mode). -/
def LoopOk : Option Nat → Prop
  | none => True
  | some k => 1 ≤ k ∧ k ≤ 65535

/-- The expected verification-mode result line for one part: pass/fail
marker, computed output and elapsed duration, in the harness's format. -/
def verificationLine (env : Env) (year day part_n : Nat) (part : Part)
    (input : List String) : Event :=
  let result := part.solve input
  let duration := env.runDuration year day part_n
  let check := if result = part.correct_solution then "\x1B[32m✔\x1B[0m"
    else "\x1B[31m✘\x1B[0m"
  let output := s!"{check} {result} ({duration})"
  .out s!"year {year}, day {day}, part {part_n}: {output}"

/-- Sequence a list of run fragments. -/
def seqAll (rs : List RunResult) : RunResult :=
  rs.foldr RunResult.seq ⟨[], none⟩

/-! ## Helper lemmas -/

theorem RunResult.seq_nil_none (b : RunResult) : RunResult.seq ⟨[], none⟩ b = b := by
  simp [RunResult.seq]

theorem RunResult.seq_none_nil (a : RunResult) : RunResult.seq a ⟨[], none⟩ = a := by
  unfold RunResult.seq
  cases h : a.fatal with
  | none => simp [← h]
  | some f => rfl

theorem RunResult.seq_single (e : Event) (b : RunResult) :
    RunResult.seq ⟨[e], none⟩ b = ⟨e :: b.events, b.fatal⟩ := by
  simp [RunResult.seq]

theorem RunResult.seq_assoc (a b c : RunResult) :
    RunResult.seq (RunResult.seq a b) c = RunResult.seq a (RunResult.seq b c) := by
  unfold RunResult.seq
  cases ha : a.fatal with
  | some f => simp [ha]
  | none =>
    cases hb : b.fatal with
    | some f => simp [ha, hb]
    | none => simp [ha, hb]

theorem RunResult.fatal_seq (a b : RunResult) :
    (RunResult.seq a b).fatal ≠ none ↔ a.fatal ≠ none ∨ b.fatal ≠ none := by
  unfold RunResult.seq
  cases h : a.fatal <;> simp [h]

theorem withNumbers_map_fst (base : Nat) :
    ∀ l : List α, (withNumbers base l).map Prod.fst = List.range' base l.length := by
  intro l
  induction l generalizing base with
  | nil => rfl
  | cons a rest ih => simp [withNumbers, List.range', ih]

theorem mem_withNumbers (base : Nat) (p : Nat × α) :
    ∀ l : List α, p ∈ withNumbers base l ↔
      ∃ i, i < l.length ∧ base + i = p.1 ∧ l[i]? = some p.2 := by
  intro l
  induction l generalizing base with
  | nil => simp [withNumbers]
  | cons a rest ih =>
    simp only [withNumbers, List.mem_cons, ih (base + 1)]
    constructor
    · rintro (rfl | ⟨i, hi, hb, hg⟩)
      · exact ⟨0, by simp⟩
      · exact ⟨i + 1, by simp only [List.length_cons]; omega, by omega, by simpa using hg⟩
    · rintro ⟨i, hi, hb, hg⟩
      cases i with
      | zero =>
        left
        simp only [List.getElem?_cons_zero, Option.some.injEq] at hg
        cases p
        simp_all
      | succ j =>
        right
        refine ⟨j, ?_, by omega, by simpa using hg⟩
        simp only [List.length_cons] at hi
        omega

theorem benchmark_part_eq (part : Part) (input : List String) (measure : Nat → Nat)
    (lc : Nat) (h : 1 ≤ lc) :
    ∃ p5, (((List.range lc).map measure).mergeSort (fun a b => a ≤ b))[lc / 20]? = some p5 ∧
      benchmark_part part input measure lc = some s!"{lc} loops, top 5%: {p5} per loop" := by
  have hlen : (((List.range lc).map measure).mergeSort (fun a b => a ≤ b)).length = lc := by
    simp
  have hidx : lc / 20 < lc := Nat.div_lt_self h (by norm_num)
  obtain ⟨p5, hp5⟩ :
      ∃ p5, (((List.range lc).map measure).mergeSort (fun a b => a ≤ b))[lc / 20]? = some p5 := by
    cases hg : (((List.range lc).map measure).mergeSort (fun a b => a ≤ b))[lc / 20]? with
    | some p5 => exact ⟨p5, rfl⟩
    | none =>
      rw [List.getElem?_eq_none_iff] at hg
      omega
  refine ⟨p5, hp5, ?_⟩
  simp only [benchmark_part, hp5]

theorem part_output_isSome (env : Env) (year day part_n : Nat) (part : Part)
    (input : List String) (lc : Option Nat) (h : LoopOk lc) :
    (part_output env year day part_n part input lc).isSome := by
  cases lc with
  | none => simp [part_output]
  | some k =>
    obtain ⟨h1, _⟩ := h
    obtain ⟨p5, _, hb⟩ :=
      benchmark_part_eq part input (env.benchDuration year day part_n) k h1
    simp [part_output, hb]

theorem run_parts_fatal (env : Env) (input : List String) (year day : Nat)
    (lc : Option Nat) (h : LoopOk lc) :
    ∀ (parts : List Part) (n : Nat),
      (run_parts env input year day lc parts n).fatal = none := by
  intro parts
  induction parts with
  | nil => intro n; rfl
  | cons part rest ih =>
    intro n
    rw [run_parts]
    obtain ⟨output, ho⟩ := Option.isSome_iff_exists.mp
      (part_output_isSome env year day n part input lc h)
    simp only [ho, RunResult.seq_single]
    exact ih (n + 1)

theorem run_parts_none_eq (env : Env) (input : List String) (year day : Nat) :
    ∀ (parts : List Part) (n : Nat),
      run_parts env input year day none parts n =
        ⟨(withNumbers n parts).map (fun q => verificationLine env year day q.1 q.2 input),
         none⟩ := by
  intro parts
  induction parts with
  | nil => intro n; rfl
  | cons part rest ih =>
    intro n
    rw [run_parts]
    have ho : part_output env year day n part input none =
        some (let result := part.solve input
              let duration := env.runDuration year day n
              let check := if result = part.correct_solution then "\x1B[32m✔\x1B[0m"
                else "\x1B[31m✘\x1B[0m"
              s!"{check} {result} ({duration})") := rfl
    simp only [ho, RunResult.seq_single, ih (n + 1)]
    rfl

theorem run_solution_fatal_iff (env : Env) (parts : Day) (year day : Nat)
    (lc : Option Nat) (h : LoopOk lc) :
    (run_solution env parts year day lc).fatal ≠ none ↔ env.fixture year day = none := by
  unfold run_solution
  cases hf : env.fixture year day with
  | none => simp
  | some input => simp [run_parts_fatal env input year day lc h]

theorem run_days_fatal_iff (env : Env) (year_abs day_n : Nat) (lc : Option Nat)
    (h : LoopOk lc) :
    ∀ (days : List Day) (off : Nat),
      (run_days env year_abs day_n lc days off).fatal ≠ none ↔
        ∃ q ∈ withNumbers (day_n + off) days, q.2 ≠ [] ∧
          env.fixture year_abs q.1 = none := by
  intro days
  induction days with
  | nil => intro off; simp [run_days, withNumbers]
  | cons day rest ih =>
    intro off
    rw [run_days]
    simp only [withNumbers, List.mem_cons]
    by_cases hday : day.isEmpty
    · rw [if_pos hday, ih (off + 1)]
      have hd : day = [] := List.isEmpty_iff.mp hday
      subst hd
      constructor
      · rintro ⟨q, hq, hne, hf⟩
        exact ⟨q, Or.inr (by simpa [Nat.add_assoc] using hq), hne, hf⟩
      · rintro ⟨q, hq, hne, hf⟩
        rcases hq with rfl | hq
        · exact absurd rfl hne
        · exact ⟨q, by simpa [Nat.add_assoc] using hq, hne, hf⟩
    · rw [if_neg hday, RunResult.fatal_seq,
        run_solution_fatal_iff env day year_abs (day_n + off) lc h, ih (off + 1)]
      have hd : day ≠ [] := by
        intro hnil
        exact hday (by simp [hnil])
      constructor
      · rintro (hf | ⟨q, hq, hne, hf⟩)
        · exact ⟨(day_n + off, day), Or.inl rfl, hd, hf⟩
        · exact ⟨q, Or.inr (by simpa [Nat.add_assoc] using hq), hne, hf⟩
      · rintro ⟨q, hq, hne, hf⟩
        rcases hq with rfl | hq
        · exact Or.inl hf
        · exact Or.inr ⟨q, by simpa [Nat.add_assoc] using hq, hne, hf⟩

theorem run_year_fatal_iff (env : Env) (year_n year_abs : Nat) (ds : Selection)
    (lc : Option Nat) (h : LoopOk lc) (year : Year) :
    (run_year env year_n year_abs ds lc year).fatal ≠ none ↔
      (ds = .Latest ∧ year = []) ∨
        ∃ q ∈ dayScopeList year ds, q.2 ≠ [] ∧ env.fixture year_abs q.1 = none := by
  cases ds with
  | All =>
    rw [run_year]
    rw [run_days_fatal_iff env year_abs 1 lc h year 0]
    simp [dayScopeList]
  | Latest =>
    rw [run_year]
    cases hl : year.getLast? with
    | none =>
      have hy : year = [] := List.getLast?_eq_none_iff.mp hl
      simp [dayScopeList, hl, hy]
    | some d =>
      have hne : year ≠ [] := by
        intro hnil
        rw [hnil] at hl
        cases hl
      rw [run_days_fatal_iff env year_abs year.length lc h [d] 0]
      simp [dayScopeList, hl, hne, withNumbers]
  | Single day_n =>
    rw [run_year]
    by_cases hg : day_n < 1 || year.length < day_n
    · rw [if_pos hg]
      have hscope : dayScopeList year (.Single day_n) = [] := by
        simp only [dayScopeList]
        rw [if_pos hg]
      simp [hscope]
    · rw [if_neg hg]
      have hg' : 1 ≤ day_n ∧ day_n ≤ year.length := by
        simp only [decide_eq_true_eq, Bool.or_eq_true, not_or, not_lt] at hg
        omega
      cases hd : year[day_n - 1]? with
      | none =>
        rw [List.getElem?_eq_none_iff] at hd
        omega
      | some d =>
        rw [run_days_fatal_iff env year_abs day_n lc h [d] 0]
        have hscope : dayScopeList year (.Single day_n) = [(day_n, d)] := by
          simp only [dayScopeList]
          rw [if_neg hg, hd]
        simp [hscope, withNumbers]

theorem run_years_fatal_iff (env : Env) (year_n : Nat) (ds : Selection)
    (lc : Option Nat) (h : LoopOk lc) :
    ∀ (years : List Year) (off : Nat),
      (run_years env year_n ds lc years off).fatal ≠ none ↔
        ∃ p ∈ withNumbers (year_n + off) years,
          (ds = .Latest ∧ p.2 = []) ∨
            ∃ q ∈ dayScopeList p.2 ds, q.2 ≠ [] ∧ env.fixture p.1 q.1 = none := by
  intro years
  induction years with
  | nil => intro off; simp [run_years, withNumbers]
  | cons year rest ih =>
    intro off
    rw [run_years, RunResult.fatal_seq,
      run_year_fatal_iff env year_n (year_n + off) ds lc h year, ih (off + 1)]
    simp only [withNumbers, List.mem_cons]
    constructor
    · rintro (hy | ⟨p, hp, hcond⟩)
      · exact ⟨(year_n + off, year), Or.inl rfl, hy⟩
      · exact ⟨p, Or.inr (by simpa [Nat.add_assoc] using hp), hcond⟩
    · rintro ⟨p, hp, hcond⟩
      rcases hp with rfl | hp
      · exact Or.inl hcond
      · exact Or.inr ⟨p, by simpa [Nat.add_assoc] using hp, hcond⟩

theorem run_years_eq_seqAll (env : Env) (year_n : Nat) (ds : Selection)
    (lc : Option Nat) :
    ∀ (years : List Year) (off : Nat),
      run_years env year_n ds lc years off =
        seqAll ((withNumbers (year_n + off) years).map
          (fun p => run_year env year_n p.1 ds lc p.2)) := by
  intro years
  induction years with
  | nil => intro off; rfl
  | cons year rest ih =>
    intro off
    rw [run_years, ih (off + 1)]
    simp [withNumbers, seqAll, Nat.add_assoc]

/-! ## Claim theorems -/

/-- C2: for every strictly positive loop count `L`, `benchmark_part` records
`L` durations, sorts them ascending, and returns a summary containing the
duration at sorted index `L / 20` (floor division) labelled as a top-5%
figure together with the loop count; `L = 20` selects sorted index `1`
(second fastest) and any `L < 20` selects index `0` (the fastest run). -/
theorem C2_benchmark_percentile (part : Part) (input : List String)
    (measure : Nat → Nat) (L : Nat) (h : 1 ≤ L) :
    ∃ sorted p5,
      ((List.range L).map measure).length = L ∧
      sorted.Perm ((List.range L).map measure) ∧
      List.Sorted (· ≤ ·) sorted ∧
      sorted[L / 20]? = some p5 ∧
      benchmark_part part input measure L = some s!"{L} loops, top 5%: {p5} per loop" ∧
      (L = 20 → L / 20 = 1) ∧ (L < 20 → L / 20 = 0) := by
  obtain ⟨p5, hp5, hb⟩ := benchmark_part_eq part input measure L h
  refine ⟨((List.range L).map measure).mergeSort (fun a b => a ≤ b), p5,
    by simp, List.mergeSort_perm _ _, ?_, hp5, hb, fun hL => by omega,
    fun hL => Nat.div_eq_of_lt hL⟩
  exact List.sorted_mergeSort' _

/-- C2 witness: at `L = 20` with concrete measurements the hypotheses hold
and the summary references the second-fastest timing. -/
theorem C2_benchmark_percentile_witness :
    ∃ sorted p5,
      ((List.range 20).map (fun i => 100 - i)).length = 20 ∧
      sorted.Perm ((List.range 20).map (fun i => 100 - i)) ∧
      List.Sorted (· ≤ ·) sorted ∧
      sorted[20 / 20]? = some p5 ∧
      benchmark_part ⟨"42", fun _ => "42"⟩ [] (fun i => 100 - i) 20 =
        some s!"{20} loops, top 5%: {p5} per loop" ∧
      ((20 : Nat) = 20 → 20 / 20 = 1) ∧ ((20 : Nat) < 20 → 20 / 20 = 0) :=
  C2_benchmark_percentile ⟨"42", fun _ => "42"⟩ [] (fun i => 100 - i) 20 (by decide)

/-- C10: for every loop count `1 ≤ L ≤ 65535`, the timing vector has exactly
`L` elements and the sorted index `L / 20` is in bounds, so `benchmark_part`
returns a summary and never panics (the solver being a total function). -/
theorem C10_benchmark_in_bounds (part : Part) (input : List String)
    (measure : Nat → Nat) (L : Nat) (h1 : 1 ≤ L) (h2 : L ≤ 65535) :
    ((List.range L).map measure).length = L ∧ L / 20 < L ∧
      (benchmark_part part input measure L).isSome := by
  obtain ⟨p5, _, hb⟩ := benchmark_part_eq part input measure L h1
  exact ⟨by simp, Nat.div_lt_self h1 (by norm_num), by simp [hb]⟩

/-- C10 witness: concrete loop count `5`. -/
theorem C10_benchmark_in_bounds_witness :
    ((List.range 5).map (fun i => i + 3)).length = 5 ∧ 5 / 20 < 5 ∧
      (benchmark_part ⟨"42", fun _ => "42"⟩ [] (fun i => i + 3) 5).isSome :=
  C10_benchmark_in_bounds ⟨"42", fun _ => "42"⟩ [] (fun i => i + 3) 5
    (by decide) (by decide)

/-- C3: `Selection.parse` maps exactly `"*"` to `All` and `"."` to `Latest`;
any other text yields `Single n` exactly when it parses as a non-negative
integer `n`, and otherwise an explicit error value is returned to the
caller; concretely `parse "7" = Single 7` and `parse "abc"` fails. -/
theorem C3_selection_parse (text : String) (h1 : text ≠ "*") (h2 : text ≠ ".") :
    Selection.parse "*" = .ok .All ∧
    Selection.parse "." = .ok .Latest ∧
    Selection.parse "7" = .ok (.Single 7) ∧
    Selection.parse "abc" = .error () ∧
    (∀ n, Selection.parse text = .ok (.Single n) ↔ parseUsize text = some n) ∧
    (Selection.parse text = .error () ↔ parseUsize text = none) := by
  refine ⟨by rfl, by rfl, by rfl, by rfl, ?_, ?_⟩ <;>
    unfold Selection.parse <;> rw [if_neg h1, if_neg h2]
  · intro n
    cases hp : parseUsize text <;> simp [hp]
  · cases hp : parseUsize text <;> simp [hp]

/-- C3 witness: instantiated at the non-wildcard text `"abc"`. -/
theorem C3_selection_parse_witness :
    Selection.parse "*" = .ok .All ∧
    Selection.parse "." = .ok .Latest ∧
    Selection.parse "7" = .ok (.Single 7) ∧
    Selection.parse "abc" = .error () ∧
    (∀ n, Selection.parse "abc" = .ok (.Single n) ↔ parseUsize "abc" = some n) ∧
    (Selection.parse "abc" = .error () ↔ parseUsize "abc" = none) :=
  C3_selection_parse "abc" (by decide) (by decide)

/-- A part whose computed output matches its known-correct string. -/
def part42 : Part := ⟨"42", fun _ => "42"⟩

/-- A part whose computed output differs from its known-correct string. -/
def part41 : Part := ⟨"42", fun _ => "41"⟩

/-- An environment in which every fixture is present. -/
def envTotal : Env :=
  ⟨fun _ _ => some ["line"], fun _ _ _ => 7, fun _ _ _ _ => 3⟩

/-- An environment in which every fixture is missing. -/
def envMissing : Env :=
  ⟨fun _ _ => none, fun _ _ _ => 7, fun _ _ _ _ => 3⟩

/-- C4: in single-run mode each part is compared by exact string equality;
per part exactly one stdout line `"year {Y}, day {D}, part {P}: {outcome}"`
is emitted, the outcome holding the pass/fail marker, the computed output
and the elapsed duration; a mismatch never terminates the run — every
remaining part still gets its line. -/
theorem C4_verification_lines (env : Env) (year day : Nat) (parts : List Part)
    (input : List String) (h : env.fixture year day = some input) :
    run_solution env parts year day none =
      ⟨(withNumbers 1 parts).map (fun q => verificationLine env year day q.1 q.2 input),
       none⟩ := by
  unfold run_solution
  rw [h]
  exact run_parts_none_eq env input year day parts 1

/-- C4 witness: a passing and a failing part; the failing part's line shows
the red marker and its computed output, and the run continues to part 2. -/
theorem C4_verification_lines_witness :
    run_solution envTotal [part42, part41] 2021 1 none =
      ⟨(withNumbers 1 [part42, part41]).map
        (fun q => verificationLine envTotal 2021 1 q.1 q.2 ["line"]), none⟩ ∧
    (run_solution envTotal [part42, part41] 2021 1 none).events =
      [.out "year 2021, day 1, part 1: \x1B[32m✔\x1B[0m 42 (7)",
       .out "year 2021, day 1, part 2: \x1B[31m✘\x1B[0m 41 (7)"] :=
  ⟨C4_verification_lines envTotal 2021 1 [part42, part41] ["line"] rfl, by rfl⟩

/-- C9: a day with an empty part sequence is never executed and produces no
output and no report: inserting it anywhere leaves the run unchanged except
that the later days keep their own (shifted) numbers, and this holds under
every day-selection mode — an empty day resolved by `Latest` or by an
in-range `Single` also yields nothing. -/
theorem C9_empty_day_skipped (env : Env) (year_n year_abs day_n : Nat)
    (lc : Option Nat) (off : Nat) (days1 days2 : List Day)
    (year1 year2 : List Day) :
    run_days env year_abs day_n lc (days1 ++ ([] : Day) :: days2) off =
      RunResult.seq (run_days env year_abs day_n lc days1 off)
        (run_days env year_abs day_n lc days2 (off + days1.length + 1)) ∧
    run_year env year_n year_abs .Latest lc (year1 ++ [([] : Day)]) = ⟨[], none⟩ ∧
    run_year env year_n year_abs (.Single (year1.length + 1)) lc
      (year1 ++ ([] : Day) :: year2) = ⟨[], none⟩ := by
  refine ⟨?_, ?_, ?_⟩
  · induction days1 generalizing off with
    | nil =>
      rw [List.nil_append, run_days, run_days]
      simp [RunResult.seq_nil_none]
    | cons day rest ih =>
      rw [List.cons_append, run_days, run_days]
      by_cases hday : day.isEmpty
      · rw [if_pos hday, if_pos hday, ih (off + 1)]
        congr 1
        simp [Nat.add_assoc, Nat.add_comm, Nat.add_left_comm]
      · rw [if_neg hday, if_neg hday, ih (off + 1), ← RunResult.seq_assoc]
        congr 2
        simp [Nat.add_assoc, Nat.add_comm, Nat.add_left_comm]
  · rw [run_year]
    rw [List.getLast?_concat]
    simp [run_days]
  · rw [run_year]
    have hg : ¬(year1.length + 1 < 1 ||
        (year1 ++ ([] : Day) :: year2).length < year1.length + 1) = true := by
      simp only [decide_eq_true_eq, Bool.or_eq_true, not_or, not_lt,
        List.length_append, List.length_cons]
      omega
    rw [if_neg hg]
    have hd : (year1 ++ ([] : Day) :: year2)[year1.length + 1 - 1]? =
        some ([] : Day) := by
      have he : year1.length + 1 - 1 = year1.length := by omega
      rw [he, List.getElem?_append_right (Nat.le_refl _)]
      simp
    rw [hd]
    simp [run_days]

/-- C5: a day selection `Single n` with `n = 0` or `n` above the year's day
count runs no part of that year: the year contributes exactly one stderr
report and no abnormal termination, and the orchestrator continues with the
remaining years. -/
theorem C5_day_out_of_range (env : Env) (year_n year_abs : Nat)
    (lc : Option Nat) (year : Year) (n : Nat)
    (h : n = 0 ∨ year.length < n) :
    run_year env year_n year_abs (.Single n) lc year =
      ⟨[.err s!"no solution available for day {n} of year {year_n}"], none⟩ ∧
    ∀ (rest : List Year) (off : Nat),
      run_years env year_n (.Single n) lc (year :: rest) off =
        ⟨.err s!"no solution available for day {n} of year {year_n}" ::
           (run_years env year_n (.Single n) lc rest (off + 1)).events,
         (run_years env year_n (.Single n) lc rest (off + 1)).fatal⟩ := by
  have hg : (n < 1 || year.length < n) = true := by
    simp only [Bool.or_eq_true, decide_eq_true_eq]
    omega
  have hy : ∀ year_abs2,
      run_year env year_n year_abs2 (.Single n) lc year =
        ⟨[.err s!"no solution available for day {n} of year {year_n}"], none⟩ := by
    intro year_abs2
    rw [run_year, if_pos hg]
  refine ⟨hy year_abs, ?_⟩
  intro rest off
  rw [run_years, hy (year_n + off), RunResult.seq_single]

/-- C5 witness: day 5 of a year holding one single-part day. -/
theorem C5_day_out_of_range_witness :
    run_year envTotal 2021 2021 (.Single 5) none [[part42]] =
      ⟨[.err s!"no solution available for day {5} of year {2021}"],
       none⟩ ∧
    ∀ (rest : List Year) (off : Nat),
      run_years envTotal 2021 (.Single 5) none ([[part42]] :: rest) off =
        ⟨.err s!"no solution available for day {5} of year {2021}" ::
           (run_years envTotal 2021 (.Single 5) none rest (off + 1)).events,
         (run_years envTotal 2021 (.Single 5) none rest (off + 1)).fatal⟩ :=
  C5_day_out_of_range envTotal 2021 2021 none [[part42]] 5 (Or.inr (by decide))

/-- C6: a year selection `Single y` with `y` below `FIRST_YEAR` or beyond
the last registered year emits exactly the out-of-range report on stderr
and returns immediately — no selection summary, no year processed, no
abnormal termination. -/
theorem C6_year_out_of_range (env : Env) (reg : Registry) (ds : Selection)
    (lc : Option Nat) (year_n : Nat)
    (h : year_n < FIRST_YEAR ∨ FIRST_YEAR + reg.length ≤ year_n) :
    run_solutions env reg (.Single year_n) ds lc =
      ⟨[.err s!"no solutions available for year {year_n}"], none⟩ := by
  have hg : (year_n < FIRST_YEAR || reg.length ≤ year_n - FIRST_YEAR) = true := by
    simp only [Bool.or_eq_true, decide_eq_true_eq]
    unfold FIRST_YEAR at h ⊢
    omega
  rw [run_solutions, if_pos hg]

/-- C6 witness: year 2023 against a single-year registry. -/
theorem C6_year_out_of_range_witness :
    run_solutions envTotal [[[part42]]] (.Single 2023) .All none =
      ⟨[.err s!"no solutions available for year {2023}"], none⟩ :=
  C6_year_out_of_range envTotal [[[part42]]] .All none 2023 (Or.inr (by decide))

/-- C7: with year selection `All`, the resolved absolute year numbers are
exactly `FIRST_YEAR, FIRST_YEAR + 1, ..., FIRST_YEAR + N - 1` in ascending
order, and the run is the selection summary followed by each year processed
(`run_year`) under its own absolute year number. -/
theorem C7_all_years (env : Env) (reg : Registry) (ds : Selection)
    (lc : Option Nat) :
    (yearScopeList reg .All).map Prod.fst = List.range' FIRST_YEAR reg.length ∧
    run_solutions env reg .All ds lc =
      RunResult.seq ⟨[print_selection .All ds FIRST_YEAR], none⟩
        (seqAll ((yearScopeList reg .All).map
          (fun p => run_year env FIRST_YEAR p.1 ds lc p.2))) := by
  refine ⟨withNumbers_map_fst FIRST_YEAR reg, ?_⟩
  rw [run_solutions]
  congr 1
  rw [run_years_eq_seqAll env FIRST_YEAR ds lc reg 0]
  rfl

/-- C8: with year selection `Latest` over a non-empty registry, exactly one
year is resolved — the last — with absolute number `N + FIRST_YEAR - 1`,
used both in the selection summary and as the year number every result
line of that year is produced under. -/
theorem C8_latest_year (env : Env) (reg : Registry) (ds : Selection)
    (lc : Option Nat) (h : reg ≠ []) :
    yearScopeList reg .Latest = [(reg.length + FIRST_YEAR - 1, reg.getLast h)] ∧
    run_solutions env reg .Latest ds lc =
      RunResult.seq
        ⟨[print_selection .Latest ds (reg.length + FIRST_YEAR - 1)], none⟩
        (run_year env (reg.length + FIRST_YEAR - 1) (reg.length + FIRST_YEAR - 1)
          ds lc (reg.getLast h)) := by
  have hl : reg.getLast? = some (reg.getLast h) := List.getLast?_eq_getLast reg h
  constructor
  · simp only [yearScopeList, hl]
  · simp only [run_solutions, hl]
    congr 1
    rw [run_years, run_years]
    exact RunResult.seq_none_nil _

/-- C1 is refuted as stated: the run can terminate abnormally although every
fixture is present — `Latest` over a year with no days panics on
`last().unwrap()`. -/
theorem C1_counterexample :
    (run_solutions envTotal [([] : Year)] .All .Latest none).fatal =
      some .panicLatestEmpty ∧
    envTotal.fixture = fun _ _ => some ["line"] :=
  ⟨rfl, rfl⟩

/-- C1 (amended): the run terminates abnormally iff a `Latest` selection is
resolved against an empty sequence (year `Latest` on an empty registry, or
day `Latest` on a selected year with no days), or the fixture of a selected
non-empty day is missing or unreadable; every other anomaly (parse failure
happens before the run, out-of-range `Single`, empty day, output mismatch)
never terminates the process. -/
theorem C1_fatal_iff (env : Env) (reg : Registry) (ys ds : Selection)
    (lc : Option Nat) (h : LoopOk lc) :
    (run_solutions env reg ys ds lc).fatal ≠ none ↔
      (ys = .Latest ∧ reg = []) ∨
      ∃ p ∈ yearScopeList reg ys,
        (ds = .Latest ∧ p.2 = []) ∨
        ∃ q ∈ dayScopeList p.2 ds, q.2 ≠ [] ∧ env.fixture p.1 q.1 = none := by
  cases ys with
  | All =>
    rw [run_solutions, RunResult.fatal_seq,
      run_years_fatal_iff env FIRST_YEAR ds lc h reg 0]
    simp only [yearScopeList]
    constructor
    · rintro (habs | h2)
      · simp at habs
      · exact Or.inr (by simpa using h2)
    · rintro (⟨hcon, _⟩ | h2)
      · exact absurd hcon (by simp)
      · exact Or.inr (by simpa using h2)
  | Latest =>
    cases hl : reg.getLast? with
    | none =>
      have hreg : reg = [] := List.getLast?_eq_none_iff.mp hl
      subst hreg
      simp [run_solutions, yearScopeList]
    | some y =>
      have hne : reg ≠ [] := by
        intro h0
        rw [h0] at hl
        cases hl
      simp only [run_solutions, hl]
      rw [RunResult.fatal_seq,
        run_years_fatal_iff env (reg.length + FIRST_YEAR - 1) ds lc h [y] 0]
      simp only [yearScopeList, hl]
      constructor
      · rintro (habs | h2)
        · simp at habs
        · exact Or.inr (by simpa [withNumbers] using h2)
      · rintro (⟨_, hcon⟩ | h2)
        · exact absurd hcon hne
        · exact Or.inr (by simpa [withNumbers] using h2)
  | Single year_n =>
    by_cases hg : year_n < FIRST_YEAR || reg.length ≤ year_n - FIRST_YEAR
    · rw [run_solutions, if_pos hg]
      have hscope : yearScopeList reg (.Single year_n) = [] := by
        simp only [yearScopeList]
        rw [if_pos hg]
      simp [hscope]
    · rw [run_solutions, if_neg hg]
      cases hy : reg[year_n - FIRST_YEAR]? with
      | none =>
        rw [List.getElem?_eq_none_iff] at hy
        simp only [Bool.or_eq_true, decide_eq_true_eq, not_or, not_lt] at hg
        omega
      | some y =>
        rw [RunResult.fatal_seq, run_years_fatal_iff env year_n ds lc h [y] 0]
        have hscope : yearScopeList reg (.Single year_n) = [(year_n, y)] := by
          simp only [yearScopeList]
          rw [if_neg hg, hy]
        rw [hscope]
        constructor
        · rintro (habs | h2)
          · simp at habs
          · exact Or.inr (by simpa [withNumbers] using h2)
        · rintro (⟨hcon, _⟩ | h2)
          · exact absurd hcon (by simp)
          · exact Or.inr (by simpa [withNumbers] using h2)

/-- C1 amended-claim witness: with every fixture missing and an in-range
single selection, the run terminates abnormally, as the amended condition
says. -/
theorem C1_fatal_iff_witness :
    (run_solutions envMissing [[[part42]]] (.Single 2021) (.Single 1) none).fatal ≠ none ↔
      ((Selection.Single 2021 = .Latest ∧ ([[[part42]]] : Registry) = []) ∨
      ∃ p ∈ yearScopeList [[[part42]]] (.Single 2021),
        (Selection.Single 1 = .Latest ∧ p.2 = []) ∨
        ∃ q ∈ dayScopeList p.2 (.Single 1), q.2 ≠ [] ∧
          envMissing.fixture p.1 q.1 = none) :=
  C1_fatal_iff envMissing [[[part42]]] (.Single 2021) (.Single 1) none trivial

/-- C7 witness: a two-year registry resolves to `{2021, 2022}` in order. -/
theorem C7_all_years_witness :
    (yearScopeList [[[part42]], [[part41]]] .All).map Prod.fst =
      List.range' FIRST_YEAR 2 ∧
    run_solutions envTotal [[[part42]], [[part41]]] .All .All none =
      RunResult.seq ⟨[print_selection .All .All FIRST_YEAR], none⟩
        (seqAll ((yearScopeList [[[part42]], [[part41]]] .All).map
          (fun p => run_year envTotal FIRST_YEAR p.1 .All none p.2))) :=
  C7_all_years envTotal [[[part42]], [[part41]]] .All none

/-- C8 witness: a two-year registry with `Latest` resolves to year 2022. -/
theorem C8_latest_year_witness :
    yearScopeList [[[part42]], [[part41]]] .Latest =
      [(([[[part42]], [[part41]]] : Registry).length + FIRST_YEAR - 1,
        ([[[part42]], [[part41]]] : Registry).getLast (by simp))] ∧
    run_solutions envTotal [[[part42]], [[part41]]] .Latest .All none =
      RunResult.seq
        ⟨[print_selection .Latest .All
            (([[[part42]], [[part41]]] : Registry).length + FIRST_YEAR - 1)], none⟩
        (run_year envTotal
          (([[[part42]], [[part41]]] : Registry).length + FIRST_YEAR - 1)
          (([[[part42]], [[part41]]] : Registry).length + FIRST_YEAR - 1)
          .All none (([[[part42]], [[part41]]] : Registry).getLast (by simp))) :=
  C8_latest_year envTotal [[[part42]], [[part41]]] .All none (by simp)

end Aoc
